import Mathlib

/-!
Shallow embedding of the hand-written external scanner in
`src/langs/group-maple/kdl/def/grammar/scanner.c`.

The lexer cursor is modelled as the list of remaining code points
(`List Nat`): the lookahead of an exhausted stream is the sentinel 0,
matching the driver contract, and `advance` drops one code point.  Each
scanning function returns its success flag together with the remaining
stream; the entry point additionally returns the reported symbol
(`result_symbol`).  The `for (;;)` loop bodies of the C functions become
recursive functions on the remaining stream.
-/

namespace KdlScanner

/-- Current lookahead code point; 0 is the end-of-input sentinel. -/
def lookahead : List Nat → Nat
  | [] => 0
  | c :: _ => c

/-- `advance` from scanner.c: move the cursor one code point forward. -/
def advance (s : List Nat) : List Nat := s.tail

@[simp] lemma lookahead_nil : lookahead [] = 0 := rfl

@[simp] lemma lookahead_cons (c : Nat) (cs : List Nat) : lookahead (c :: cs) = c := rfl

@[simp] lemma advance_nil : advance [] = [] := rfl

@[simp] lemma advance_cons (c : Nat) (cs : List Nat) : advance (c :: cs) = cs := rfl

lemma advance_length_le (s : List Nat) : (advance s).length ≤ s.length := by
  cases s <;> simp [advance]

lemma length_pos_of_lookahead_ne (s : List Nat) (h : lookahead s ≠ 0) : 0 < s.length := by
  cases s with
  | nil => simp at h
  | cons c cs => simp

/-- `is_newline` from scanner.c: CR, LF, NEL (U+0085), FF (U+000C),
LS (U+2028), PS (U+2029). -/
def is_newline (c : Nat) : Bool :=
  c == 13 || c == 10 || c == 133 || c == 12 || c == 8232 || c == 8233

/-- `consume_newline` from scanner.c: a CR immediately followed by LF is
consumed as one unit; every other newline form is one code point. -/
def consume_newline (s : List Nat) : List Nat :=
  if lookahead s = 13 then
    let s1 := advance s
    if lookahead s1 = 10 then advance s1 else s1
  else advance s

lemma consume_newline_length_lt (c : Nat) (r : List Nat) :
    (consume_newline (c :: r)).length < (c :: r).length := by
  have h1 := advance_length_le r
  simp only [consume_newline, lookahead_cons, advance_cons, List.length_cons]
  split
  · split
    · omega
    · omega
  · omega

/-- The `for (;;)` loop of `scan_multiline_comment`: the mutable state is
the remaining stream together with `after_star` and `nesting_depth`. -/
def scan_multiline_comment_loop : List Nat → Bool → Nat → Bool × List Nat
  | [], _, _ => (false, [])
  | c :: cs, after_star, nesting_depth =>
    if c = 0 then (false, c :: cs)
    else if c = 42 then scan_multiline_comment_loop cs true nesting_depth
    else if c = 47 then
      if after_star then
        if nesting_depth - 1 = 0 then (true, cs)
        else scan_multiline_comment_loop cs false (nesting_depth - 1)
      else
        if lookahead cs = 42 then
          scan_multiline_comment_loop (advance cs) false (nesting_depth + 1)
        else scan_multiline_comment_loop cs false nesting_depth
    else scan_multiline_comment_loop cs false nesting_depth
termination_by s _ _ => s.length
decreasing_by
  all_goals
    have h1 := advance_length_le cs
    simp only [List.length_cons]
    omega

/-- `scan_multiline_comment` from scanner.c. -/
def scan_multiline_comment (s : List Nat) : Bool × List Nat :=
  if lookahead s ≠ 47 then (false, s)
  else
    let s1 := advance s
    if lookahead s1 ≠ 42 then (false, s1)
    else scan_multiline_comment_loop (advance s1) false 1

/-- `try_consume_hashes` from scanner.c. -/
def try_consume_hashes : Nat → List Nat → Bool × List Nat
  | 0, s => (true, s)
  | n + 1, s =>
    if lookahead s ≠ 35 then (false, s)
    else try_consume_hashes n (advance s)

lemma try_consume_hashes_length_le (n : Nat) (s : List Nat) :
    (try_consume_hashes n s).2.length ≤ s.length := by
  induction n generalizing s with
  | zero => simp [try_consume_hashes]
  | succ n ih =>
    unfold try_consume_hashes
    by_cases h : lookahead s ≠ 35
    · simp [if_pos h]
    · simp only [if_neg h]
      exact le_trans (ih (advance s)) (advance_length_le s)

/-- The leading-hash counting loop of `scan_raw_string`
(`while (lexer->lookahead == '#') ...`). -/
def count_hashes : List Nat → Nat × List Nat
  | [] => (0, [])
  | c :: cs =>
    if c = 35 then
      let r := count_hashes cs
      (r.1 + 1, r.2)
    else (0, c :: cs)

/-- `scan_raw_string_single_line` from scanner.c; the cursor is positioned
right after the opening quote. -/
def scan_raw_string_single_line (hashes : Nat) (s : List Nat) : Bool × List Nat :=
  if h0 : s = [] ∨ lookahead s = 0 then (false, s)
  else if is_newline (lookahead s) then (false, s)
  else if lookahead s ≠ 34 then scan_raw_string_single_line hashes (advance s)
  else
    let r := try_consume_hashes hashes (advance s)
    if r.1 then (true, r.2)
    else scan_raw_string_single_line hashes r.2
termination_by s.length
decreasing_by
  all_goals
    have hne : s ≠ [] := by
      intro h
      exact h0 (Or.inl h)
    have hpos : 0 < s.length := List.length_pos.mpr hne
    have h1 : (advance s).length ≤ s.length - 1 := by
      cases s with
      | nil => simp at hne
      | cons c cs => simp [advance]
  · omega
  · have h2 := try_consume_hashes_length_le hashes (advance s)
    omega

/-- `scan_raw_string_multi_line` from scanner.c; the cursor is positioned
immediately after the opening newline following the three quotes. -/
def scan_raw_string_multi_line (hashes : Nat) (s : List Nat) : Bool × List Nat :=
  if h0 : s = [] ∨ lookahead s = 0 then (false, s)
  else if lookahead s ≠ 34 then
    if is_newline (lookahead s) then scan_raw_string_multi_line hashes (consume_newline s)
    else scan_raw_string_multi_line hashes (advance s)
  else
    let s1 := advance s
    if lookahead s1 ≠ 34 then scan_raw_string_multi_line hashes s1
    else
      let s2 := advance s1
      if lookahead s2 ≠ 34 then scan_raw_string_multi_line hashes s2
      else
        let s3 := advance s2
        let r := try_consume_hashes hashes s3
        if r.1 then (true, r.2)
        else scan_raw_string_multi_line hashes r.2
termination_by s.length
decreasing_by
  all_goals
    have hne : s ≠ [] := by
      intro h
      exact h0 (Or.inl h)
    have hpos : 0 < s.length := List.length_pos.mpr hne
    have h1 : (advance s).length ≤ s.length - 1 := by
      cases s with
      | nil => simp at hne
      | cons c cs => simp [advance]
  · obtain ⟨c, r, rfl⟩ : ∃ c r, s = c :: r := by
      cases s with
      | nil => simp at hne
      | cons c cs => exact ⟨c, cs, rfl⟩
    exact consume_newline_length_lt _ _
  · omega
  · omega
  · have h2 := advance_length_le (advance s)
    omega
  · have h2 := advance_length_le (advance s)
    have h3 := advance_length_le (advance (advance s))
    have h4 := try_consume_hashes_length_le hashes (advance (advance (advance s)))
    omega

/-- `scan_raw_string` from scanner.c. -/
def scan_raw_string (s : List Nat) : Bool × List Nat :=
  if lookahead s ≠ 35 then (false, s)
  else
    let r := count_hashes s
    let hashes := r.1
    let s1 := r.2
    if lookahead s1 ≠ 34 then (false, s1)
    else
      let s2 := advance s1
      if lookahead s2 = 34 then
        let s3 := advance s2
        if lookahead s3 ≠ 34 then
          let r2 := try_consume_hashes hashes s3
          if r2.1 then (true, r2.2) else (false, r2.2)
        else
          let s4 := advance s3
          if ¬ is_newline (lookahead s4) then (false, s4)
          else scan_raw_string_multi_line hashes (consume_newline s4)
      else scan_raw_string_single_line hashes s2

/-- The stream of `d` nested comment openers `/*` in front of a tail. -/
def nested_opens : Nat → List Nat → List Nat
  | 0, tl => tl
  | d + 1, tl => 47 :: 42 :: nested_opens d tl

/-- The stream of `d` nested comment closers `*/` in front of a tail. -/
def nested_closes : Nat → List Nat → List Nat
  | 0, tl => tl
  | d + 1, tl => 42 :: 47 :: nested_closes d tl

/-- The three token kinds of the external scanner
(`_EOF`, `MULTI_LINE_COMMENT`, `RAW_STRING`). -/
inductive Sym where
  | eofTok
  | multiLineComment
  | rawString
deriving DecidableEq, Repr

/-- `tree_sitter_kdl_external_scanner_scan`: dispatch over the valid-kind
set; the reported symbol is returned alongside the remaining stream. -/
def tree_sitter_kdl_external_scanner_scan
    (validEof validComment validRaw : Bool) (s : List Nat) :
    Option Sym × List Nat :=
  if validEof = true ∧ lookahead s = 0 then (some Sym.eofTok, advance s)
  else if validRaw = true ∧ lookahead s = 35 then
    let r := scan_raw_string s
    (if r.1 then some Sym.rawString else none, r.2)
  else if validComment = true ∧ lookahead s = 47 then
    let r := scan_multiline_comment s
    (if r.1 then some Sym.multiLineComment else none, r.2)
  else (none, s)

/-! ## Helper lemmas -/

lemma is_newline_iff (c : Nat) :
    is_newline c = true ↔
      c = 13 ∨ c = 10 ∨ c = 133 ∨ c = 12 ∨ c = 8232 ∨ c = 8233 := by
  simp [is_newline]
  tauto

lemma is_newline_ne_zero {c : Nat} (h : is_newline c = true) : c ≠ 0 := by
  rw [is_newline_iff] at h
  omega

lemma is_newline_ne_quote {c : Nat} (h : is_newline c = true) : c ≠ 34 := by
  rw [is_newline_iff] at h
  omega

lemma consume_newline_cons_of_ne {c : Nat} (r : List Nat) (h : c ≠ 13) :
    consume_newline (c :: r) = r := by
  simp [consume_newline, h]

lemma count_hashes_replicate (n : Nat) (s : List Nat) (h : lookahead s ≠ 35) :
    count_hashes (List.replicate n 35 ++ s) = (n, s) := by
  induction n with
  | zero =>
    simp only [List.replicate, List.nil_append]
    cases s with
    | nil => rfl
    | cons c cs =>
      have hc : c ≠ 35 := by simpa using h
      simp [count_hashes, hc]
  | succ n ih =>
    simp [List.replicate_succ, count_hashes, ih]

lemma try_consume_hashes_replicate (n k : Nat) :
    try_consume_hashes n (List.replicate k 35) =
      if n ≤ k then (true, List.replicate (k - n) 35) else (false, []) := by
  induction n generalizing k with
  | zero => simp [try_consume_hashes]
  | succ n ih =>
    cases k with
    | zero => simp [try_consume_hashes, List.replicate]
    | succ k =>
      simp only [List.replicate_succ, try_consume_hashes, lookahead_cons, advance_cons]
      rw [ih k]
      by_cases h : n ≤ k
      · simp [h, Nat.succ_sub_succ]
      · simp [h, fun hh => h (Nat.le_of_succ_le_succ hh)]

lemma scan_raw_string_single_line_nil (N : Nat) :
    scan_raw_string_single_line N [] = (false, []) := by
  rw [scan_raw_string_single_line]
  simp

lemma scan_raw_string_multi_line_nil (N : Nat) :
    scan_raw_string_multi_line N [] = (false, []) := by
  rw [scan_raw_string_multi_line]
  simp

lemma scan_raw_string_single_line_append (N : Nat) :
    ∀ body tl : List Nat,
      (∀ c ∈ body, c ≠ 0 ∧ c ≠ 34 ∧ is_newline c = false) →
      scan_raw_string_single_line N (body ++ tl) = scan_raw_string_single_line N tl := by
  intro body
  induction body with
  | nil => intro tl _; simp
  | cons c rest ih =>
    intro tl hb
    obtain ⟨⟨hc0, hc34, hcnl⟩, hrest⟩ := List.forall_mem_cons.mp hb
    rw [List.cons_append, scan_raw_string_single_line]
    simp [hc0, hc34, hcnl, ih tl hrest]

lemma scan_raw_string_single_line_closer (N K : Nat) :
    scan_raw_string_single_line N (34 :: List.replicate K 35) =
      if N ≤ K then (true, List.replicate (K - N) 35) else (false, []) := by
  rw [scan_raw_string_single_line]
  simp only [lookahead_cons, advance_cons, try_consume_hashes_replicate]
  by_cases h : N ≤ K
  · simp [h, is_newline]
  · simp [h, is_newline, scan_raw_string_single_line_nil]

lemma scan_raw_string_multi_line_append_aux (N : Nat) (tl : List Nat)
    (htl : lookahead tl ≠ 10) :
    ∀ (n : Nat) (body : List Nat), body.length ≤ n →
      (∀ c ∈ body, c ≠ 0 ∧ c ≠ 34) →
      scan_raw_string_multi_line N (body ++ tl) = scan_raw_string_multi_line N tl := by
  intro n
  induction n with
  | zero =>
    intro body hlen _
    have h : body = [] := List.eq_nil_of_length_eq_zero (by omega)
    subst h
    simp
  | succ n ih =>
    intro body hlen hb
    cases body with
    | nil => simp
    | cons c rest =>
      obtain ⟨⟨hc0, hc34⟩, hrest⟩ := List.forall_mem_cons.mp hb
      simp only [List.length_cons] at hlen
      rw [List.cons_append, scan_raw_string_multi_line]
      by_cases hnl : is_newline c = true
      · by_cases h13 : c = 13
        · subst h13
          cases rest with
          | nil =>
            have hcn : consume_newline (13 :: tl) = tl := by
              cases tl with
              | nil => simp [consume_newline]
              | cons t ts =>
                have ht : t ≠ 10 := by simpa using htl
                simp [consume_newline, ht]
            simp [hc0, hnl, hcn]
          | cons d rest2 =>
            simp only [List.length_cons] at hlen
            by_cases h10 : d = 10
            · subst h10
              have hcn :
                  consume_newline (13 :: 10 :: (rest2 ++ tl)) = rest2 ++ tl := by
                simp [consume_newline]
              have hrest2 : ∀ c ∈ rest2, c ≠ 0 ∧ c ≠ 34 :=
                fun x hx => hrest x (List.mem_cons_of_mem 10 hx)
              simp [hc0, hnl, hcn, ih rest2 (by omega) hrest2]
            · have hcn :
                  consume_newline (13 :: d :: (rest2 ++ tl)) = d :: (rest2 ++ tl) := by
                simp [consume_newline, h10]
              have ihd := ih (d :: rest2) (by simp only [List.length_cons]; omega) hrest
              simp only [List.cons_append] at ihd
              simp [hc0, hnl, hcn, ihd]
        · have hcn : consume_newline (c :: (rest ++ tl)) = rest ++ tl :=
            consume_newline_cons_of_ne _ h13
          simp [hc0, hc34, hnl, hcn, ih rest (by omega) hrest]
      · simp [hc0, hc34, hnl, ih rest (by omega) hrest]

lemma scan_raw_string_multi_line_append (N : Nat) (body tl : List Nat)
    (hb : ∀ c ∈ body, c ≠ 0 ∧ c ≠ 34) (htl : lookahead tl ≠ 10) :
    scan_raw_string_multi_line N (body ++ tl) = scan_raw_string_multi_line N tl :=
  scan_raw_string_multi_line_append_aux N tl htl body.length body le_rfl hb

lemma multi_after_opener (N : Nat) (nl : Nat) (hnl : is_newline nl = true)
    (body tl : List Nat) (hb : ∀ c ∈ body, c ≠ 0 ∧ c ≠ 34)
    (htl : lookahead tl ≠ 10) :
    scan_raw_string_multi_line N (consume_newline (nl :: (body ++ tl))) =
      scan_raw_string_multi_line N tl := by
  by_cases h13 : nl = 13
  · subst h13
    cases body with
    | nil =>
      have hcn : consume_newline (13 :: (([] : List Nat) ++ tl)) = tl := by
        cases tl with
        | nil => simp [consume_newline]
        | cons t ts =>
          have ht : t ≠ 10 := by simpa using htl
          simp [consume_newline, ht]
      rw [hcn]
    | cons d rest =>
      by_cases h10 : d = 10
      · subst h10
        rw [show consume_newline (13 :: ((10 :: rest) ++ tl)) = rest ++ tl by
          simp [consume_newline]]
        exact scan_raw_string_multi_line_append N rest tl
          (fun x hx => hb x (List.mem_cons_of_mem 10 hx)) htl
      · rw [show consume_newline (13 :: ((d :: rest) ++ tl)) = (d :: rest) ++ tl by
          simp [consume_newline, h10]]
        exact scan_raw_string_multi_line_append N (d :: rest) tl hb htl
  · rw [consume_newline_cons_of_ne _ h13]
    exact scan_raw_string_multi_line_append N body tl hb htl

lemma scan_raw_string_multi_line_closer (N K : Nat) :
    scan_raw_string_multi_line N (34 :: 34 :: 34 :: List.replicate K 35) =
      if N ≤ K then (true, List.replicate (K - N) 35) else (false, []) := by
  rw [scan_raw_string_multi_line]
  simp only [lookahead_cons, advance_cons, try_consume_hashes_replicate]
  by_cases h : N ≤ K
  · simp [h]
  · simp [h, scan_raw_string_multi_line_nil]

lemma scan_multiline_comment_loop_opens (k : Nat) (tl : List Nat) :
    ∀ dep : Nat,
      scan_multiline_comment_loop (nested_opens k tl) false dep =
        scan_multiline_comment_loop tl false (dep + k) := by
  induction k with
  | zero => intro dep; simp [nested_opens]
  | succ k ih =>
    intro dep
    simp only [nested_opens]
    have step :
        scan_multiline_comment_loop (47 :: 42 :: nested_opens k tl) false dep =
          scan_multiline_comment_loop (nested_opens k tl) false (dep + 1) := by
      rw [scan_multiline_comment_loop]
      simp
    rw [step, ih (dep + 1)]
    congr 1
    omega

lemma scan_multiline_comment_loop_closes (d : Nat) :
    ∀ tl : List Nat,
      scan_multiline_comment_loop (nested_closes (d + 1) tl) false (d + 1) = (true, tl) := by
  induction d with
  | zero =>
    intro tl
    rw [nested_closes, nested_closes, scan_multiline_comment_loop]
    simp only [Nat.reduceEqDiff, if_true, if_false]
    rw [scan_multiline_comment_loop]
    simp
  | succ d ih =>
    intro tl
    simp only [nested_closes]
    rw [scan_multiline_comment_loop]
    simp only [Nat.reduceEqDiff, if_true, if_false]
    rw [scan_multiline_comment_loop]
    have ih' := ih tl
    simp only [nested_closes] at ih'
    simp [ih']

lemma lookahead_replicate_hash (m : Nat) (L : List Nat) :
    lookahead (List.replicate (m + 1) 35 ++ L) = 35 := by
  simp [List.replicate_succ]

lemma scan_raw_string_abc (M K : Nat) (hM : 1 ≤ M) :
    scan_raw_string
        (List.replicate M 35 ++ 34 :: 97 :: 98 :: 99 :: 34 :: List.replicate K 35) =
      if M ≤ K then (true, List.replicate (K - M) 35) else (false, []) := by
  obtain ⟨m, rfl⟩ : ∃ m, M = m + 1 := ⟨M - 1, by omega⟩
  have hch := count_hashes_replicate (m + 1)
    (34 :: 97 :: 98 :: 99 :: 34 :: List.replicate K 35) (by simp)
  have hsl := scan_raw_string_single_line_append (m + 1) [97, 98, 99]
    (34 :: List.replicate K 35) (by decide)
  simp only [List.cons_append, List.nil_append] at hsl
  simp only [scan_raw_string, hch, lookahead_replicate_hash, lookahead_cons,
    advance_cons, ne_eq]
  norm_num
  rw [hsl, scan_raw_string_single_line_closer]

lemma scan_abc_eval (M K : Nat) (hM : 1 ≤ M) :
    tree_sitter_kdl_external_scanner_scan false false true
        (List.replicate M 35 ++ 34 :: 97 :: 98 :: 99 :: 34 :: List.replicate K 35) =
      if M ≤ K then (some Sym.rawString, List.replicate (K - M) 35) else (none, []) := by
  obtain ⟨m, rfl⟩ : ∃ m, M = m + 1 := ⟨M - 1, by omega⟩
  simp only [tree_sitter_kdl_external_scanner_scan, lookahead_replicate_hash,
    scan_raw_string_abc (m + 1) K (by omega)]
  norm_num
  by_cases hk : m + 1 ≤ K
  · simp [hk]
  · simp [hk]

lemma scan_multiline_comment_loop_no_close :
    ∀ body : List Nat, (∀ c ∈ body, c ≠ 47 ∧ c ≠ 0) →
      ∀ (as : Bool) (dep : Nat), scan_multiline_comment_loop body as dep = (false, []) := by
  intro body
  induction body with
  | nil => intro _ as dep; rw [scan_multiline_comment_loop]
  | cons c cs ih =>
    intro hb as dep
    obtain ⟨⟨hc47, hc0⟩, hcs⟩ := List.forall_mem_cons.mp hb
    rw [scan_multiline_comment_loop]
    simp [hc0, hc47, ih hcs]

lemma scan_raw_string_multi_eval (N K : Nat) (hN : 1 ≤ N) (nl : Nat)
    (hnl : is_newline nl = true) (body : List Nat)
    (hb : ∀ c ∈ body, c ≠ 0 ∧ c ≠ 34) :
    scan_raw_string
        (List.replicate N 35 ++ 34 :: 34 :: 34 :: nl ::
          (body ++ 34 :: 34 :: 34 :: List.replicate K 35)) =
      if N ≤ K then (true, List.replicate (K - N) 35) else (false, []) := by
  obtain ⟨m, rfl⟩ : ∃ m, N = m + 1 := ⟨N - 1, by omega⟩
  have hch := count_hashes_replicate (m + 1)
    (34 :: 34 :: 34 :: nl :: (body ++ 34 :: 34 :: 34 :: List.replicate K 35)) (by simp)
  have hml := multi_after_opener (m + 1) nl hnl body
    (34 :: 34 :: 34 :: List.replicate K 35) hb (by simp)
  simp only [scan_raw_string, hch, lookahead_replicate_hash, lookahead_cons,
    advance_cons, ne_eq]
  norm_num [hnl]
  rw [hml, scan_raw_string_multi_line_closer]

lemma scan_multi_eval (N K : Nat) (hN : 1 ≤ N) (nl : Nat)
    (hnl : is_newline nl = true) (body : List Nat)
    (hb : ∀ c ∈ body, c ≠ 0 ∧ c ≠ 34) :
    tree_sitter_kdl_external_scanner_scan false false true
        (List.replicate N 35 ++ 34 :: 34 :: 34 :: nl ::
          (body ++ 34 :: 34 :: 34 :: List.replicate K 35)) =
      if N ≤ K then (some Sym.rawString, List.replicate (K - N) 35) else (none, []) := by
  obtain ⟨m, rfl⟩ : ∃ m, N = m + 1 := ⟨N - 1, by omega⟩
  simp only [tree_sitter_kdl_external_scanner_scan, lookahead_replicate_hash,
    scan_raw_string_multi_eval (m + 1) K (by omega) nl hnl body hb]
  norm_num
  by_cases hk : m + 1 ≤ K
  · simp [hk]
  · simp [hk]

lemma scan_multi_opener_fail (N : Nat) (hN : 1 ≤ N) (c : Nat) (tl : List Nat)
    (hc : is_newline c = false) :
    tree_sitter_kdl_external_scanner_scan false false true
        (List.replicate N 35 ++ 34 :: 34 :: 34 :: c :: tl) = (none, c :: tl) := by
  obtain ⟨m, rfl⟩ : ∃ m, N = m + 1 := ⟨N - 1, by omega⟩
  have hch := count_hashes_replicate (m + 1) (34 :: 34 :: 34 :: c :: tl) (by simp)
  simp only [tree_sitter_kdl_external_scanner_scan, scan_raw_string, hch,
    lookahead_replicate_hash, lookahead_cons, advance_cons, ne_eq]
  norm_num [hc]

lemma multi_line_lone_quote (N c : Nat) (r : List Nat) (hc : c ≠ 34) :
    scan_raw_string_multi_line N (34 :: c :: r) = scan_raw_string_multi_line N (c :: r) := by
  rw [scan_raw_string_multi_line]
  simp [hc]

lemma multi_line_two_quotes (N c : Nat) (r : List Nat) (hc : c ≠ 34) :
    scan_raw_string_multi_line N (34 :: 34 :: c :: r) =
      scan_raw_string_multi_line N (c :: r) := by
  rw [scan_raw_string_multi_line]
  simp [hc]


lemma scan_multiline_comment_loop_fail_lookahead :
    ∀ (s : List Nat) (as : Bool) (dep : Nat),
      (scan_multiline_comment_loop s as dep).1 = false →
      lookahead (scan_multiline_comment_loop s as dep).2 = 0 := by
  intro s as dep
  induction s, as, dep using scan_multiline_comment_loop.induct <;>
    (rw [scan_multiline_comment_loop]; simp_all)

lemma scan_multiline_comment_loop_length :
    ∀ (s : List Nat) (as : Bool) (dep : Nat),
      (scan_multiline_comment_loop s as dep).2.length ≤ s.length := by
  intro s as dep
  induction s, as, dep using scan_multiline_comment_loop.induct <;>
    first
      | (rw [scan_multiline_comment_loop]; simp_all [advance]; omega)
      | (rw [scan_multiline_comment_loop]; simp_all [advance])
      | rw [scan_multiline_comment_loop]

lemma count_hashes_length (s : List Nat) : (count_hashes s).2.length ≤ s.length := by
  induction s with
  | nil => simp [count_hashes]
  | cons c cs ih =>
    rw [count_hashes]
    by_cases h : c = 35
    · subst h
      rw [if_pos rfl]
      simp only [List.length_cons]
      omega
    · simp [h]

lemma scan_raw_string_single_line_length_aux (N : Nat) :
    ∀ (n : Nat) (s : List Nat), s.length ≤ n →
      (scan_raw_string_single_line N s).2.length ≤ s.length := by
  intro n
  induction n with
  | zero =>
    intro s hs
    have h : s = [] := List.eq_nil_of_length_eq_zero (by omega)
    subst h
    simp [scan_raw_string_single_line_nil]
  | succ n ih =>
    intro s hs
    rw [scan_raw_string_single_line]
    split
    · simp
    · rename_i h0
      have hlen : (advance s).length ≤ s.length - 1 := by
        cases s with
        | nil => exact absurd (Or.inl rfl) h0
        | cons c cs => simp [advance]
      have hpos : 0 < s.length := by
        cases s with
        | nil => exact absurd (Or.inl rfl) h0
        | cons c cs => simp
      split
      · simp
      · split
        · exact le_trans (ih (advance s) (by omega)) (by omega)
        · have htch := try_consume_hashes_length_le N (advance s)
          simp only []
          split
          · simp
            omega
          · exact le_trans (ih (try_consume_hashes N (advance s)).2 (by omega)) (by omega)

lemma consume_newline_length_le (s : List Nat) :
    (consume_newline s).length ≤ s.length := by
  cases s with
  | nil => simp [consume_newline]
  | cons c r => exact le_of_lt (consume_newline_length_lt c r)

lemma scan_raw_string_multi_line_length_aux (N : Nat) :
    ∀ (n : Nat) (s : List Nat), s.length ≤ n →
      (scan_raw_string_multi_line N s).2.length ≤ s.length := by
  intro n
  induction n with
  | zero =>
    intro s hs
    have h : s = [] := List.eq_nil_of_length_eq_zero (by omega)
    subst h
    simp [scan_raw_string_multi_line_nil]
  | succ n ih =>
    intro s hs
    rw [scan_raw_string_multi_line]
    split
    · simp
    · rename_i h0
      have hne : s ≠ [] := fun h => h0 (Or.inl h)
      have hpos : 0 < s.length := List.length_pos.mpr hne
      have hlen : (advance s).length ≤ s.length - 1 := by
        cases s with
        | nil => exact absurd rfl hne
        | cons c cs => simp [advance]
      have hcn : (consume_newline s).length ≤ s.length - 1 := by
        cases s with
        | nil => exact absurd rfl hne
        | cons c cs =>
          have := consume_newline_length_lt c cs
          simp only [List.length_cons] at *
          omega
      have ha2 := advance_length_le (advance s)
      have ha3 := advance_length_le (advance (advance s))
      split
      · split
        · exact le_trans (ih (consume_newline s) (by omega)) (by omega)
        · exact le_trans (ih (advance s) (by omega)) (by omega)
      · simp only []
        split
        · exact le_trans (ih (advance s) (by omega)) (by omega)
        · split
          · exact le_trans (ih (advance (advance s)) (by omega)) (by omega)
          · have htch := try_consume_hashes_length_le N (advance (advance (advance s)))
            split
            · simp
              omega
            · exact le_trans
                (ih (try_consume_hashes N (advance (advance (advance s)))).2 (by omega))
                (by omega)

lemma scan_raw_string_single_line_length (N : Nat) (s : List Nat) :
    (scan_raw_string_single_line N s).2.length ≤ s.length :=
  scan_raw_string_single_line_length_aux N s.length s le_rfl

lemma scan_raw_string_multi_line_length (N : Nat) (s : List Nat) :
    (scan_raw_string_multi_line N s).2.length ≤ s.length :=
  scan_raw_string_multi_line_length_aux N s.length s le_rfl

lemma scan_raw_string_length (s : List Nat) :
    (scan_raw_string s).2.length ≤ s.length := by
  rw [scan_raw_string]
  have hch := count_hashes_length s
  have ha1 := advance_length_le (count_hashes s).2
  have ha2 := advance_length_le (advance (count_hashes s).2)
  have ha3 := advance_length_le (advance (advance (count_hashes s).2))
  split
  · simp
  · simp only []
    split
    · simpa using hch
    · split
      · split
        · have htch := try_consume_hashes_length_le (count_hashes s).1
            (advance (advance (count_hashes s).2))
          split
          · simp
            omega
          · simp
            omega
        · split
          · simp
            omega
          · have hcn := consume_newline_length_le (advance (advance (advance (count_hashes s).2)))
            have hml := scan_raw_string_multi_line_length (count_hashes s).1
              (consume_newline (advance (advance (advance (count_hashes s).2))))
            omega
      · have hsl := scan_raw_string_single_line_length (count_hashes s).1
          (advance (count_hashes s).2)
        omega

lemma scan_multiline_comment_length (s : List Nat) :
    (scan_multiline_comment s).2.length ≤ s.length := by
  rw [scan_multiline_comment]
  have ha1 := advance_length_le s
  have ha2 := advance_length_le (advance s)
  have hlp := scan_multiline_comment_loop_length (advance (advance s)) false 1
  split
  · simp
  · simp only []
    split
    · simp
      omega
    · omega

lemma scan_entry_length (ve vc vr : Bool) (s : List Nat) :
    (tree_sitter_kdl_external_scanner_scan ve vc vr s).2.length ≤ s.length := by
  rw [tree_sitter_kdl_external_scanner_scan]
  have h1 := scan_raw_string_length s
  have h2 := scan_multiline_comment_length s
  have h3 := advance_length_le s
  split
  · simpa using h3
  · split
    · simpa using h1
    · split
      · simpa using h2
      · simp

/-! ## Claim theorems -/

/-- Claim C1 counterexample: with hash count N = 0 the opening and closing
hash counts are equal, yet the input `"abc"` is not recognized — both the
dispatch guard and `scan_raw_string` require a leading `#`. -/
theorem raw_string_zero_hashes_rejected :
    tree_sitter_kdl_external_scanner_scan false false true [34, 97, 98, 99, 34] =
      (none, [34, 97, 98, 99, 34]) := by
  simp [tree_sitter_kdl_external_scanner_scan]

/-- Claim C1 (amended: hash count at least 1): for opening hash count M ≥ 1 and
closing hash count K, the input of M `#`, `"abc"`, then K `#` is recognized by
scan (raw-string kind valid) as a single raw-string token spanning the whole
input iff the hash counts agree; when the closing run is shorter (K < M) the
quote and the shorter hash run are absorbed as body content and scanning
continues to end of input (consuming everything) instead of failing at once. -/
theorem raw_string_single_line_hash_matching (M K : Nat) (hM : 1 ≤ M) :
    (tree_sitter_kdl_external_scanner_scan false false true
        (List.replicate M 35 ++ 34 :: 97 :: 98 :: 99 :: 34 :: List.replicate K 35) =
      (some Sym.rawString, []) ↔ M = K)
    ∧ (K < M →
        tree_sitter_kdl_external_scanner_scan false false true
            (List.replicate M 35 ++ 34 :: 97 :: 98 :: 99 :: 34 :: List.replicate K 35) =
          (none, [])) := by
  have hev := scan_abc_eval M K hM
  constructor
  · constructor
    · intro h
      rw [hev] at h
      by_cases hk : M ≤ K
      · rw [if_pos hk] at h
        have h2 : List.replicate (K - M) (35 : Nat) = [] := congrArg Prod.snd h
        have h3 : K - M = 0 := by simpa using h2
        omega
      · rw [if_neg hk] at h
        simp at h
    · intro h
      subst h
      rw [hev, if_pos le_rfl]
      simp
  · intro hKM
    rw [hev, if_neg (by omega)]

/-- Witness for C1 at M = K = 2: `##"abc"##` scans as one raw string. -/
theorem raw_string_single_line_hash_matching_witness :
    tree_sitter_kdl_external_scanner_scan false false true
        (List.replicate 2 35 ++ 34 :: 97 :: 98 :: 99 :: 34 :: List.replicate 2 35) =
      (some Sym.rawString, []) :=
  (raw_string_single_line_hash_matching 2 2 (by norm_num)).1.mpr rfl

/-- Claim C2: for every nesting depth d ≥ 1, a well-nested comment of d nested
`/* */` pairs scans (comment kind valid) as exactly one multi-line-comment
token consuming exactly through the matching outermost `*/` inclusive; by
`scan_multiline_comment_loop_opens` and `scan_multiline_comment_loop_closes`
the depth counter starts at 1 after the opening pair, is incremented at each
`/*`, decremented at each `*/`, completing exactly at depth 0. -/
theorem nested_comment_scans_once (d : Nat) (hd : 1 ≤ d) (tl : List Nat) (ve vr : Bool) :
    tree_sitter_kdl_external_scanner_scan ve true vr
        (nested_opens d (nested_closes d tl)) = (some Sym.multiLineComment, tl) := by
  obtain ⟨e, rfl⟩ : ∃ e, d = e + 1 := ⟨d - 1, by omega⟩
  have hloop :
      scan_multiline_comment_loop (nested_opens e (nested_closes (e + 1) tl)) false 1 =
        (true, tl) := by
    rw [scan_multiline_comment_loop_opens]
    rw [show 1 + e = e + 1 by omega]
    exact scan_multiline_comment_loop_closes e tl
  have hcmt :
      scan_multiline_comment (nested_opens (e + 1) (nested_closes (e + 1) tl)) =
        (true, tl) := by
    simp only [nested_opens]
    rw [scan_multiline_comment]
    simp [hloop]
  have hlk : lookahead (nested_opens (e + 1) (nested_closes (e + 1) tl)) = 47 := by
    simp [nested_opens]
  rw [tree_sitter_kdl_external_scanner_scan]
  simp [hlk, hcmt]

/-- Witness for C2 at d = 2: `/*` `/*` `*/` `*/` scans as one comment. -/
theorem nested_comment_scans_once_witness :
    tree_sitter_kdl_external_scanner_scan false true false
        (nested_opens 2 (nested_closes 2 [])) = (some Sym.multiLineComment, []) :=
  nested_comment_scans_once 2 (by norm_num) [] false false

/-- Claim C3 counterexample: (i) with hash count N = 0 the input three quotes,
LF, `a`, LF, three quotes is opened and closed as the claim demands, yet scan
rejects it (no leading `#`); (ii) with N = 1 the input `#`, three quotes, LF,
then four quotes and `#` has body consisting of a lone `"` followed by the
closer — three consecutive quotes and exactly one `#` — yet the close probe
started at the lone quote absorbs two closer quotes, the remaining `"#` never
matches, and the scan consumes everything and fails instead of recognizing
the token (so the lone quote is not simply "retained as body content"). -/
theorem raw_string_multi_line_close_counterexample :
    tree_sitter_kdl_external_scanner_scan false false true
        [34, 34, 34, 10, 97, 10, 34, 34, 34] =
      (none, [34, 34, 34, 10, 97, 10, 34, 34, 34])
    ∧ tree_sitter_kdl_external_scanner_scan false false true
        [35, 34, 34, 34, 10, 34, 34, 34, 34, 35] = (none, []) := by
  constructor
  · simp [tree_sitter_kdl_external_scanner_scan]
  · simp [tree_sitter_kdl_external_scanner_scan, scan_raw_string, count_hashes,
      scan_raw_string_multi_line, try_consume_hashes, is_newline, consume_newline]

/-- Claim C3 (amended: hash count N ≥ 1, and the probe-retention clause holds
for a lone `"` or `""` followed by a non-quote): a multi-line raw string
opened by N `#`, three quotes and any code point satisfying the newline
predicate, whose body chars are not NUL or `"`, is recognized as one
raw-string token spanning the whole input iff it is closed by three quotes
followed by exactly N `#`; a lone `"` (resp. `""`) followed by a non-quote is
retained as body content with the loop resuming where probing stopped; and
the opener fails when the character after the third opening quote does not
satisfy the newline predicate. -/
theorem raw_string_multi_line_hash_matching :
    (∀ N K : Nat, 1 ≤ N → ∀ nl : Nat, is_newline nl = true → ∀ body : List Nat,
        (∀ c ∈ body, c ≠ 0 ∧ c ≠ 34) →
        (tree_sitter_kdl_external_scanner_scan false false true
            (List.replicate N 35 ++ 34 :: 34 :: 34 :: nl ::
              (body ++ 34 :: 34 :: 34 :: List.replicate K 35)) =
          (some Sym.rawString, []) ↔ N = K))
    ∧ (∀ (N c : Nat) (r : List Nat), c ≠ 34 →
        scan_raw_string_multi_line N (34 :: c :: r) =
          scan_raw_string_multi_line N (c :: r))
    ∧ (∀ (N c : Nat) (r : List Nat), c ≠ 34 →
        scan_raw_string_multi_line N (34 :: 34 :: c :: r) =
          scan_raw_string_multi_line N (c :: r))
    ∧ (∀ (N c : Nat) (tl : List Nat), 1 ≤ N → is_newline c = false →
        tree_sitter_kdl_external_scanner_scan false false true
            (List.replicate N 35 ++ 34 :: 34 :: 34 :: c :: tl) = (none, c :: tl)) := by
  refine ⟨?_, multi_line_lone_quote, multi_line_two_quotes,
    fun N c tl hN hc => scan_multi_opener_fail N hN c tl hc⟩
  intro N K hN nl hnl body hb
  have hev := scan_multi_eval N K hN nl hnl body hb
  constructor
  · intro h
    rw [hev] at h
    by_cases hk : N ≤ K
    · rw [if_pos hk] at h
      have h2 : List.replicate (K - N) (35 : Nat) = [] := congrArg Prod.snd h
      have h3 : K - N = 0 := by simpa using h2
      omega
    · rw [if_neg hk] at h
      simp at h
  · intro h
    subst h
    rw [hev, if_pos le_rfl]
    simp

/-- Witness for C3 at N = K = 1 with a CR opener and a body `a` CR LF
containing a CRLF line break: `#"""` CR `a` CR LF `"""#` scans as one raw
string. -/
theorem raw_string_multi_line_hash_matching_witness :
    tree_sitter_kdl_external_scanner_scan false false true
        (List.replicate 1 35 ++ 34 :: 34 :: 34 :: 13 ::
          ([97, 13, 10] ++ 34 :: 34 :: 34 :: List.replicate 1 35)) =
      (some Sym.rawString, []) :=
  (raw_string_multi_line_hash_matching.1 1 1 (by norm_num) 13 rfl [97, 13, 10]
    (by decide)).mpr rfl

/-- Claim C4: whenever scan succeeds, the reported kind is one whose entry is
set in the supplied valid-kind set, and dispatch tries end-of-input first,
then raw string (lookahead `#`), then multi-line comment (lookahead `/`). -/
theorem scan_reports_only_valid_kinds (ve vc vr : Bool) (s : List Nat) :
    (∀ (sym : Sym) (rest : List Nat),
        tree_sitter_kdl_external_scanner_scan ve vc vr s = (some sym, rest) →
          (sym = Sym.eofTok ∧ ve = true) ∨ (sym = Sym.multiLineComment ∧ vc = true) ∨
            (sym = Sym.rawString ∧ vr = true))
    ∧ (ve = true → lookahead s = 0 →
        tree_sitter_kdl_external_scanner_scan ve vc vr s = (some Sym.eofTok, advance s))
    ∧ (vr = true → lookahead s = 35 →
        tree_sitter_kdl_external_scanner_scan ve vc vr s =
          (if (scan_raw_string s).1 then some Sym.rawString else none,
            (scan_raw_string s).2))
    ∧ (vc = true → lookahead s = 47 →
        tree_sitter_kdl_external_scanner_scan ve vc vr s =
          (if (scan_multiline_comment s).1 then some Sym.multiLineComment else none,
            (scan_multiline_comment s).2)) := by
  refine ⟨?_, ?_, ?_, ?_⟩
  · intro sym rest h
    rw [tree_sitter_kdl_external_scanner_scan] at h
    simp only [] at h
    split_ifs at h with h1 h2 h3 h4 h5
    · exact Or.inl ⟨by simpa using (congrArg Prod.fst h).symm, h1.1⟩
    · exact Or.inr (Or.inr ⟨by simpa using (congrArg Prod.fst h).symm, h2.1⟩)
    · exact absurd (congrArg Prod.fst h) (by simp)
    · exact Or.inr (Or.inl ⟨by simpa using (congrArg Prod.fst h).symm, h4.1⟩)
    · exact absurd (congrArg Prod.fst h) (by simp)
    · exact absurd (congrArg Prod.fst h) (by simp)
  · intro hve hlk
    rw [tree_sitter_kdl_external_scanner_scan, if_pos ⟨hve, hlk⟩]
  · intro hvr hlk
    rw [tree_sitter_kdl_external_scanner_scan, if_neg (by simp [hlk]),
      if_pos ⟨hvr, hlk⟩]
  · intro hvc hlk
    rw [tree_sitter_kdl_external_scanner_scan, if_neg (by simp [hlk]),
      if_neg (by simp [hlk]), if_pos ⟨hvc, hlk⟩]

/-- Witness for C4: at end of input with only the end-of-input kind valid,
scan reports the end-of-input kind. -/
theorem scan_reports_only_valid_kinds_witness :
    tree_sitter_kdl_external_scanner_scan true false false [] = (some Sym.eofTok, []) :=
  (scan_reports_only_valid_kinds true false false []).2.1 rfl rfl

/-- Claim C5: a single-line raw-string body hitting a literal newline (or end
of input) before a valid close never matches: the single-line body scanner
fails at the newline, and likewise at end of input; lifted to scan for inputs
of the form hashes, quote, safe body, newline. -/
theorem raw_string_single_line_newline_fails :
    (∀ (N : Nat) (body : List Nat) (c : Nat) (rest : List Nat),
        (∀ x ∈ body, x ≠ 0 ∧ x ≠ 34 ∧ is_newline x = false) →
        is_newline c = true →
        scan_raw_string_single_line N (body ++ c :: rest) = (false, c :: rest))
    ∧ (∀ (N : Nat) (body : List Nat),
        (∀ x ∈ body, x ≠ 0 ∧ x ≠ 34 ∧ is_newline x = false) →
        scan_raw_string_single_line N body = (false, []))
    ∧ (∀ (N : Nat) (body : List Nat) (c : Nat) (rest : List Nat), 1 ≤ N →
        (∀ x ∈ body, x ≠ 0 ∧ x ≠ 34 ∧ is_newline x = false) →
        is_newline c = true →
        tree_sitter_kdl_external_scanner_scan false false true
            (List.replicate N 35 ++ 34 :: (body ++ c :: rest)) = (none, c :: rest)) := by
  have key : ∀ (N c : Nat) (rest : List Nat), is_newline c = true →
      scan_raw_string_single_line N (c :: rest) = (false, c :: rest) := by
    intro N c rest hc
    have hc0 : c ≠ 0 := is_newline_ne_zero hc
    rw [scan_raw_string_single_line]
    simp [hc0, hc]
  refine ⟨?_, ?_, ?_⟩
  · intro N body c rest hb hc
    rw [scan_raw_string_single_line_append N body (c :: rest) hb]
    exact key N c rest hc
  · intro N body hb
    have h := scan_raw_string_single_line_append N body [] hb
    rw [List.append_nil] at h
    rw [h]
    exact scan_raw_string_single_line_nil N
  · intro N body c rest hN hb hc
    obtain ⟨m, rfl⟩ : ∃ m, N = m + 1 := ⟨N - 1, by omega⟩
    have hch := count_hashes_replicate (m + 1) (34 :: (body ++ c :: rest)) (by simp)
    have hlk2 : lookahead (body ++ c :: rest) ≠ 34 := by
      cases body with
      | nil => simpa using is_newline_ne_quote hc
      | cons b bs => simpa using ((List.forall_mem_cons.mp hb).1).2.1
    have hsl := scan_raw_string_single_line_append (m + 1) body (c :: rest) hb
    have hkey := key (m + 1) c rest hc
    simp only [tree_sitter_kdl_external_scanner_scan, scan_raw_string, hch,
      lookahead_replicate_hash, lookahead_cons, advance_cons, ne_eq, hlk2, hsl, hkey]
    norm_num

/-- Witness for C5: `#"h` followed by LF fails and stops at the newline. -/
theorem raw_string_single_line_newline_fails_witness :
    tree_sitter_kdl_external_scanner_scan false false true
        (List.replicate 1 35 ++ 34 :: ([104] ++ 10 :: [])) = (none, 10 :: []) :=
  raw_string_single_line_newline_fails.2.2 1 [104] 10 [] (by norm_num) (by decide) rfl

/-- Claim C6: the newline predicate accepts exactly CR, LF, NEL, FF, LS, PS;
the consumer eats CR LF as one two-code-point unit and every other recognized
form as exactly one code point, advancing at least one and at most two. -/
theorem newline_predicate_and_consumer :
    (∀ c : Nat, is_newline c = true ↔
        c = 13 ∨ c = 10 ∨ c = 133 ∨ c = 12 ∨ c = 8232 ∨ c = 8233)
    ∧ (∀ r : List Nat, consume_newline (13 :: 10 :: r) = r)
    ∧ (∀ (c : Nat) (r : List Nat), c ≠ 10 → consume_newline (13 :: c :: r) = c :: r)
    ∧ consume_newline [13] = []
    ∧ (∀ (c : Nat) (r : List Nat), is_newline c = true → c ≠ 13 →
        consume_newline (c :: r) = r)
    ∧ (∀ s : List Nat, is_newline (lookahead s) = true →
        (consume_newline s).length + 1 ≤ s.length ∧
          s.length ≤ (consume_newline s).length + 2) := by
  refine ⟨is_newline_iff, ?_, ?_, ?_, ?_, ?_⟩
  · intro r
    simp [consume_newline]
  · intro c r hc
    simp [consume_newline, hc]
  · simp [consume_newline]
  · intro c r hcn hc13
    exact consume_newline_cons_of_ne r hc13
  · intro s hs
    cases s with
    | nil => simp [is_newline] at hs
    | cons c r =>
      by_cases h13 : c = 13
      · subst h13
        cases r with
        | nil =>
          simp [consume_newline]
        | cons d r2 =>
          by_cases h10 : d = 10
          · subst h10
            simp [consume_newline]
          · simp [consume_newline, h10]
      · rw [consume_newline_cons_of_ne r h13]
        simp

/-- Witness for C6: a lone LF is consumed as exactly one code point. -/
theorem newline_predicate_and_consumer_witness :
    consume_newline (10 :: 97 :: []) = 97 :: [] :=
  newline_predicate_and_consumer.2.2.2.2.1 10 (97 :: []) rfl (by norm_num)

/-- Claim C7: a comment opened by `/*` that reaches end of input before the
depth counter returns to 0 never matches: the loop fails on the empty stream,
fails consuming everything for any close-free body, scan then reports no
token, and in general the loop returns failure only with lookahead 0
(end of input or NUL). -/
theorem unterminated_comment_never_matches :
    (∀ (as : Bool) (dep : Nat), scan_multiline_comment_loop [] as dep = (false, []))
    ∧ (∀ body : List Nat, (∀ c ∈ body, c ≠ 47 ∧ c ≠ 0) →
        ∀ (as : Bool) (dep : Nat), scan_multiline_comment_loop body as dep = (false, []))
    ∧ (∀ body : List Nat, (∀ c ∈ body, c ≠ 47 ∧ c ≠ 0) → ∀ ve vr : Bool,
        tree_sitter_kdl_external_scanner_scan ve true vr (47 :: 42 :: body) = (none, []))
    ∧ (∀ (s : List Nat) (as : Bool) (dep : Nat),
        (scan_multiline_comment_loop s as dep).1 = false →
        lookahead (scan_multiline_comment_loop s as dep).2 = 0) := by
  refine ⟨?_, scan_multiline_comment_loop_no_close, ?_,
    scan_multiline_comment_loop_fail_lookahead⟩
  · intro as dep
    rw [scan_multiline_comment_loop]
  · intro body hb ve vr
    have hlp := scan_multiline_comment_loop_no_close body hb false 1
    rw [tree_sitter_kdl_external_scanner_scan, if_neg (by simp), if_neg (by simp),
      if_pos (by simp)]
    simp [scan_multiline_comment, hlp]

/-- Witness for C7: `/*a` at end of input produces no token. -/
theorem unterminated_comment_never_matches_witness :
    tree_sitter_kdl_external_scanner_scan false true false (47 :: 42 :: [97]) =
      (none, []) :=
  unterminated_comment_never_matches.2.2.1 [97] (by decide) false false

/-- Claim C8: every scanning loop and the entry point only ever consume input
that is present: the remaining stream of any result is at most the input
stream, so a pathological unterminated comment or string runs only until end
of input, bounded by the input length (all functions are total Lean
definitions, so every invocation terminates). -/
theorem scan_consumption_bounded_by_input :
    (∀ (s : List Nat) (as : Bool) (dep : Nat),
        (scan_multiline_comment_loop s as dep).2.length ≤ s.length)
    ∧ (∀ (N : Nat) (s : List Nat),
        (scan_raw_string_single_line N s).2.length ≤ s.length)
    ∧ (∀ (N : Nat) (s : List Nat),
        (scan_raw_string_multi_line N s).2.length ≤ s.length)
    ∧ (∀ s : List Nat, (scan_raw_string s).2.length ≤ s.length)
    ∧ (∀ s : List Nat, (scan_multiline_comment s).2.length ≤ s.length)
    ∧ (∀ (ve vc vr : Bool) (s : List Nat),
        (tree_sitter_kdl_external_scanner_scan ve vc vr s).2.length ≤ s.length) :=
  ⟨scan_multiline_comment_loop_length, scan_raw_string_single_line_length,
    scan_raw_string_multi_line_length, scan_raw_string_length,
    scan_multiline_comment_length, scan_entry_length⟩

/-- Claim C9: when no dispatch guard applies, scan returns no match and the
cursor is exactly what it was on entry. -/
theorem scan_no_guard_leaves_cursor (ve vc vr : Bool) (s : List Nat)
    (h1 : ¬(ve = true ∧ lookahead s = 0))
    (h2 : ¬(vr = true ∧ lookahead s = 35))
    (h3 : ¬(vc = true ∧ lookahead s = 47)) :
    tree_sitter_kdl_external_scanner_scan ve vc vr s = (none, s) := by
  rw [tree_sitter_kdl_external_scanner_scan, if_neg h1, if_neg h2, if_neg h3]

/-- Witness for C9: lookahead `a` with all kinds valid matches no guard and
moves nothing. -/
theorem scan_no_guard_leaves_cursor_witness :
    tree_sitter_kdl_external_scanner_scan true true true [97] = (none, [97]) :=
  scan_no_guard_leaves_cursor true true true [97] (by simp) (by simp) (by simp)

/-- Claim C10: a lookahead of code point 0 is treated as end of input
everywhere: dispatch with the end-of-input kind valid succeeds after
advancing exactly once (also mid-stream), and the comment loop, the
single-line body scanner and the multi-line body scanner all fail on it. -/
theorem nul_lookahead_behaves_as_eof :
    (∀ (vc vr : Bool) (cs : List Nat),
        tree_sitter_kdl_external_scanner_scan true vc vr (0 :: cs) =
          (some Sym.eofTok, cs))
    ∧ (∀ vc vr : Bool,
        tree_sitter_kdl_external_scanner_scan true vc vr [] = (some Sym.eofTok, []))
    ∧ (∀ (cs : List Nat) (as : Bool) (dep : Nat),
        scan_multiline_comment_loop (0 :: cs) as dep = (false, 0 :: cs))
    ∧ (∀ (N : Nat) (cs : List Nat),
        scan_raw_string_single_line N (0 :: cs) = (false, 0 :: cs))
    ∧ (∀ (N : Nat) (cs : List Nat),
        scan_raw_string_multi_line N (0 :: cs) = (false, 0 :: cs)) := by
  refine ⟨?_, ?_, ?_, ?_, ?_⟩
  · intro vc vr cs
    rw [tree_sitter_kdl_external_scanner_scan, if_pos ⟨rfl, rfl⟩]
    rfl
  · intro vc vr
    rw [tree_sitter_kdl_external_scanner_scan, if_pos ⟨rfl, rfl⟩]
    rfl
  · intro cs as dep
    rw [scan_multiline_comment_loop, if_pos rfl]
  · intro N cs
    rw [scan_raw_string_single_line]
    simp
  · intro N cs
    rw [scan_raw_string_multi_line]
    simp

end KdlScanner
